import Mathlib

/-!
Shallow embedding of the ImpactX dashboard configuration/export subsystem:

* `src/python/impactx/dashboard/Input/distributionParameters/distributionFunctions.py`
  (`DistributionFunctions.convert_distribution_parameters_to_valid_type`)
* `src/python/impactx/dashboard/Toolbar/exportTemplate.py`
  (`build_distribution_list`, `build_lattice_list`, `input_file`)

Python floats are modelled exactly as decimal values `mant * 10 ^ exp10`
(`PyFloat` below); `float(s)` is modelled by `pyfloat`, a parser for the
numeric-literal grammar accepted by Python's `float` builtin (sign, integer
digits, optional fraction, optional decimal exponent; the special forms
`inf`/`nan`/underscores/surrounding whitespace are not modelled, and IEEE-754
rounding is not modelled — no claim here depends on rounding).  The textual
form `str(float)` used by the f-strings of the export template is modelled by
the canonical rendering `pyFloatStr` (mantissa, `e`, exponent), a valid float
literal of the target language.
-/

/-! ## Characters and decimal digits -/

/-- `true` exactly on the ASCII digit characters `0`–`9`. -/
def isDigitChar (c : Char) : Bool :=
  '0' ≤ c && c ≤ '9'

/-- The ASCII digit character of a digit value (`0 ↦ '0'`, …, `9 ↦ '9'`). -/
def digitChar (d : Nat) : Char :=
  Char.ofNat (48 + d)

/-- The digit value of an ASCII digit character (`'0' ↦ 0`, …). -/
def charDigitVal (c : Char) : Nat :=
  c.toNat - 48

/-- Value of a big-endian list of ASCII digit characters. -/
def digitsVal (cs : List Char) : Nat :=
  cs.foldl (fun a c => a * 10 + charDigitVal c) 0

/-- Little-endian decimal digits of `n`, with explicit fuel so that the
definition is structurally recursive and kernel-evaluable. -/
def natToRevDigitsAux : Nat → Nat → List Nat
  | 0, _ => []
  | fuel + 1, n => if n = 0 then [] else n % 10 :: natToRevDigitsAux fuel (n / 10)

/-- Little-endian decimal digits of `n` (empty for `n = 0`). -/
def natToRevDigits (n : Nat) : List Nat :=
  natToRevDigitsAux n n

/-- Decimal digit characters of a natural number (`0 ↦ "0"`). -/
def natChars (n : Nat) : List Char :=
  if n = 0 then ['0'] else (natToRevDigits n).reverse.map digitChar

/-- Decimal digit characters of an integer, with a leading `-` when negative. -/
def intChars (i : Int) : List Char :=
  (if i < 0 then ['-'] else []) ++ natChars i.natAbs

/-! ## The exact decimal model of Python floats -/

/-- Exact decimal model of a Python float: the value `mant * 10 ^ exp10`,
kept normalised (`mant = 0 → exp10 = 0`, and `10 ∤ mant` otherwise). -/
structure PyFloat where
  mant : Int
  exp10 : Int
deriving DecidableEq, Repr

/-- Divide out the factors of ten of a mantissa, returning the reduced
mantissa and the number of factors removed; fuelled structural recursion. -/
def stripZerosAux : Nat → Nat → Nat × Nat
  | 0, m => (m, 0)
  | fuel + 1, m =>
    if m ≠ 0 ∧ m % 10 = 0 then
      let p := stripZerosAux fuel (m / 10)
      (p.1, p.2 + 1)
    else (m, 0)

/-- Divide out the factors of ten of a mantissa. -/
def stripZeros (m : Nat) : Nat × Nat :=
  stripZerosAux m m

/-- Build the normalised `PyFloat` of sign `neg`, decimal mantissa `m` and
decimal exponent `e`. -/
def normPyFloat (neg : Bool) (m : Nat) (e : Int) : PyFloat :=
  if m = 0 then ⟨0, 0⟩
  else
    let p := stripZeros m
    ⟨if neg then -(p.1 : Int) else (p.1 : Int), e + (p.2 : Int)⟩

/-- Parse the exponent part of a float literal (everything after `e`/`E`):
an optional sign followed by at least one digit, consuming the whole input. -/
def parseExpPart (cs : List Char) : Option Int :=
  match cs with
  | [] => none
  | c :: r =>
    if c = '+' then
      if r ≠ [] ∧ r.all isDigitChar then some ((digitsVal r : Nat) : Int) else none
    else if c = '-' then
      if r ≠ [] ∧ r.all isDigitChar then some (-((digitsVal r : Nat) : Int)) else none
    else if (c :: r).all isDigitChar then some ((digitsVal (c :: r) : Nat) : Int)
    else none

/-- Split off an optional leading sign (`true` = negative). -/
def parseSign : List Char → Bool × List Char
  | [] => (false, [])
  | c :: r =>
    if c = '-' then (true, r)
    else if c = '+' then (false, r)
    else (false, c :: r)

/-- Split off an optional `.`-introduced fraction-digit run. -/
def parseFrac : List Char → List Char × List Char
  | [] => ([], [])
  | c :: r =>
    if c = '.' then (r.takeWhile isDigitChar, r.dropWhile isDigitChar)
    else ([], c :: r)

/-- Finish a float literal after the digits: either the end of the input or
an `e`/`E` exponent part. -/
def parseExpTail (neg : Bool) (m : Nat) (flen : Nat) : List Char → Option PyFloat
  | [] => some (normPyFloat neg m (-(flen : Int)))
  | c :: r =>
    if c = 'e' ∨ c = 'E' then
      match parseExpPart r with
      | some x => some (normPyFloat neg m (x - (flen : Int)))
      | none => none
    else none

/-- Model of Python's `float` builtin on a character list: optional sign,
integer digits, optional `.` fraction, optional `e`/`E` exponent; at least one
digit overall; `none` models the `ValueError` raised on anything else. -/
def pyfloatCore (cs0 : List Char) : Option PyFloat :=
  let sr := parseSign cs0
  let ip := sr.2.takeWhile isDigitChar
  let fr := parseFrac (sr.2.dropWhile isDigitChar)
  if ip = [] ∧ fr.1 = [] then none
  else parseExpTail sr.1 (digitsVal (ip ++ fr.1)) fr.1.length fr.2

/-- Model of Python's `float` builtin on a string. -/
def pyfloat (s : String) : Option PyFloat :=
  pyfloatCore s.data

/-- Canonical rendering of a `PyFloat` (model of `str(float)`): mantissa,
`e`, exponent — e.g. `⟨15, -1⟩ ↦ "15e-1"`, a valid Python float literal. -/
def pyFloatChars (v : PyFloat) : List Char :=
  intChars v.mant ++ 'e' :: intChars v.exp10

/-- Canonical string rendering of a `PyFloat`. -/
def pyFloatStr (v : PyFloat) : String :=
  String.mk (pyFloatChars v)

/-! ## Data model -/

/-- A raised Python exception, as observed by the dashboard code: `float`
raises `valueError` on an unparseable string, and subscripting a dict with a
missing key raises `keyError`. -/
inductive PyError where
  | valueError (msg : String)
  | keyError (msg : String)
deriving DecidableEq, Repr

/-- Decidable equality of `Except` results, for evaluating the model on
concrete inputs. -/
instance {ε α : Type} [DecidableEq ε] [DecidableEq α] : DecidableEq (Except ε α) :=
  fun x y =>
    match x, y with
    | .ok a, .ok b =>
      decidable_of_iff (a = b) ⟨fun h => h ▸ rfl, fun h => by injection h⟩
    | .ok _, .error _ => isFalse (fun h => by injection h)
    | .error _, .ok _ => isFalse (fun h => by injection h)
    | .error a, .error b =>
      decidable_of_iff (a = b) ⟨fun h => h ▸ rfl, fun h => by injection h⟩

/-- One record of `state.selectedDistributionParameters`: a parameter name,
its raw (string) default value, and the list of validation error messages
(empty list = valid). -/
structure ParamRecord where
  parameter_name : String
  parameter_default_value : String
  parameter_error_message : List String
deriving DecidableEq, Repr

/-- One raw parameter of a lattice element, as held by the dashboard state:
a key, the textual form of its value, and whether it passed validation. -/
structure LatticeParam where
  key : String
  value : String
  valid : Bool
deriving DecidableEq, Repr

/-- One record of `state.selectedLatticeList`.  The Python record is a dict;
`name` is `none` when the dict has no `"name"` key (subscripting then raises
`KeyError`). -/
structure LatticeElement where
  name : Option String
  parameters : List LatticeParam
deriving DecidableEq, Repr

/-- The dashboard state fields read by the export code.  The scalar fields
interpolated into the script template are kept in their textual (`str`) form,
which is what the f-string substitutes. -/
structure DashState where
  selectedDistribution : String
  selectedDistributionType : String
  selectedDistributionParameters : List ParamRecord
  selectedLatticeList : List LatticeElement
  particle_shape : String
  kin_energy_MeV : String
  bunch_charge_C : String
  npart : String
  charge_qe : String
  mass_MeV : String
deriving DecidableEq, Repr

/-! ## Python dict and string primitives -/

/-- Python dict assignment `d[k] = v` on an insertion-ordered association
list: an existing key keeps its position and gets the new value, a new key is
appended at the end. -/
def dictAssign (d : List (String × PyFloat)) (k : String) (v : PyFloat) :
    List (String × PyFloat) :=
  match d with
  | [] => [(k, v)]
  | (k0, v0) :: rest =>
    if k0 = k then (k, v) :: rest else (k0, v0) :: dictAssign rest k v

/-- Python's `sep.join(pieces)`. -/
def pyJoin (sep : String) : List String → String
  | [] => ""
  | [x] => x
  | x :: y :: rest => x ++ sep ++ pyJoin sep (y :: rest)

/-! ## `DistributionFunctions.convert_distribution_parameters_to_valid_type`
(`distributionFunctions.py`, lines 16–32) -/

/-- The value assigned for one record by the dict-comprehension body
`float(param["parameter_default_value"]) if param_is_valid else 0.0`:
a failed `float` parse raises `ValueError` (Python's message is
`could not convert string to float: '...'`). -/
def convertValue (param_is_valid : Bool) (raw : String) : Except PyError PyFloat :=
  if param_is_valid then
    match pyfloat raw with
    | some v => .ok v
    | none => .error (.valueError ("could not convert string to float: " ++ raw))
  else .ok ⟨0, 0⟩

/-- The dict comprehension of
`convert_distribution_parameters_to_valid_type`, record by record: records
whose `parameter_error_message` is non-empty are filtered out by the
`if (param_is_valid := ...)` clause; for the rest the body assigns
`float(default) if param_is_valid else 0.0` into the dict. -/
def convertAux (acc : List (String × PyFloat)) :
    List ParamRecord → Except PyError (List (String × PyFloat))
  | [] => .ok acc
  | p :: rest =>
    let param_is_valid := p.parameter_error_message = []
    if param_is_valid then
      match convertValue param_is_valid p.parameter_default_value with
      | .ok v => convertAux (dictAssign acc p.parameter_name v) rest
      | .error e => .error e
    else convertAux acc rest

/-- `DistributionFunctions.convert_distribution_parameters_to_valid_type`,
with the `state.selectedDistributionParameters` it reads made explicit.
Returns the insertion-ordered dict, or the propagated exception. -/
def convert_distribution_parameters_to_valid_type (records : List ParamRecord) :
    Except PyError (List (String × PyFloat)) :=
  convertAux [] records

/-! ## `build_distribution_list` (`exportTemplate.py`, lines 12–38) -/

/-- `build_distribution_list`, with the dashboard state passed explicitly.
A `ValueError` escaping the parameter conversion propagates. -/
def build_distribution_list (st : DashState) : Except PyError String := do
  let distribution_name := st.selectedDistribution
  let parameters ← convert_distribution_parameters_to_valid_type
    st.selectedDistributionParameters
  let indentation := String.mk (List.replicate
    (if st.selectedDistributionType = "Twiss" then 8 else 4) ' ')
  let distribution_parameters := pyJoin ",\n"
    (parameters.map fun kv => indentation ++ kv.1 ++ "=" ++ pyFloatStr kv.2)
  if st.selectedDistributionType = "Twiss" then
    return "distr = distribution." ++ distribution_name ++ "(\n"
      ++ "    **twiss(\n"
      ++ distribution_parameters ++ ",\n"
      ++ "    )\n"
      ++ ")"
  else
    return "distr = distribution." ++ distribution_name ++ "(\n"
      ++ distribution_parameters ++ ",\n"
      ++ ")"

/-! ## `build_lattice_list` (`exportTemplate.py`, lines 41–57) -/

/-- Modelled from the spec: `parameter_input_checker_for_lattice` is defined
in `latticeConfiguration/latticeMain.py`, which is not among the sources; per
§4.2 it "maps the element's raw parameter set to validated key/value pairs;
unknown or invalid parameters must not appear in the rendered call". -/
def parameter_input_checker_for_lattice (element : LatticeElement) :
    List (String × String) :=
  (element.parameters.filter (fun p => p.valid)).map fun p => (p.key, p.value)

/-- The per-element string of `build_lattice_list`:
`f'elements.{element["name"]}(' + ", ".join(f"{key}={value}" ...) + ")"`.
A missing `"name"` key raises `KeyError`. -/
def renderLatticeElement (element : LatticeElement) : Except PyError String :=
  match element.name with
  | none => .error (.keyError "name")
  | some n =>
    .ok ("elements." ++ n ++ "("
      ++ pyJoin ", " ((parameter_input_checker_for_lattice element).map
          fun kv => kv.1 ++ "=" ++ kv.2)
      ++ ")")

/-- `build_lattice_list`, with `state.selectedLatticeList` passed
explicitly. -/
def build_lattice_list (selectedLatticeList : List LatticeElement) :
    Except PyError String := do
  let lattice_elements := pyJoin ",\n    "
    (← selectedLatticeList.mapM renderLatticeElement)
  return "lattice_configuration = [\n    " ++ lattice_elements ++ "\n]"

/-! ## `input_file` (`exportTemplate.py`, lines 65–103) -/

/-- `input_file`: the full export template, with the dashboard state passed
explicitly.  The interpolated scalar state fields are already in textual
form; exceptions raised while rendering the distribution or lattice blocks
propagate. -/
def input_file (st : DashState) : Except PyError String := do
  let d ← build_distribution_list st
  let l ← build_lattice_list st.selectedLatticeList
  return "\nfrom impactx import ImpactX, distribution, elements, twiss\n\nsim = ImpactX()\n\nsim.particle_shape = "
    ++ st.particle_shape
    ++ "\nsim.space_charge = False\nsim.csr = False\nsim.slice_step_diagnostics = True\n\nsim.init_grids()\n\n# Initialize particle beam\nkin_energy_MeV = "
    ++ st.kin_energy_MeV
    ++ "\nbunch_charge_C = "
    ++ st.bunch_charge_C
    ++ "\nnpart = "
    ++ st.npart
    ++ "\n\n# Reference particle\nref = sim.particle_container().ref_particle()\nref.set_charge_qe("
    ++ st.charge_qe
    ++ ").set_mass_MeV("
    ++ st.mass_MeV
    ++ ").set_kin_energy_MeV(kin_energy_MeV)\n\n"
    ++ d
    ++ "\nsim.add_particles(bunch_charge_C, distr, npart)\n\n"
    ++ l
    ++ "\nsim.lattice.extend(lattice_configuration)\n\n# Simulate\nsim.track_particles()\n\nsim.finalize()\n"

/-! ## Derived notions used by the verification -/

/-- A `PyFloat` is normalised: a zero mantissa forces exponent zero, and a
non-zero mantissa carries no factor of ten. -/
def PyFloat.Normal (v : PyFloat) : Prop :=
  (v.mant = 0 → v.exp10 = 0) ∧ (v.mant ≠ 0 → v.mant.natAbs % 10 ≠ 0)

/-- Python dict lookup `d.get(k)` on an insertion-ordered association list. -/
def dictFind (d : List (String × PyFloat)) (k : String) : Option PyFloat :=
  match d with
  | [] => none
  | (k0, v0) :: rest => if k0 = k then some v0 else dictFind rest k

/-- The last record of the input whose error list is empty and whose name is
`n` (the record whose value wins in the produced dict). -/
def lastValid : List ParamRecord → String → Option ParamRecord
  | [], _ => none
  | r :: rest, n =>
    match lastValid rest n with
    | some x => some x
    | none =>
      if r.parameter_error_message = [] ∧ r.parameter_name = n then some r
      else none

/-- The names of the records that pass validation, in input order (with
duplicates). -/
def validKeys (records : List ParamRecord) : List String :=
  (records.filter fun r => decide (r.parameter_error_message = [])).map
    (fun r => r.parameter_name)

/-- Append a key unless it is already present (how one dict assignment
changes the key sequence). -/
def addKey (ks : List String) (k : String) : List String :=
  if k ∈ ks then ks else ks ++ [k]

/-- First-occurrence deduplication of a key sequence: the key order of a
Python dict built by assigning the keys in order. -/
def firstOccur (l : List String) : List String :=
  l.foldl addKey []

/-- The comprehension of `convert_distribution_parameters_to_valid_type`
with the `else 0.0` alternative of the conditional expression removed: each
kept record directly contributes `float(param["parameter_default_value"])`.
Comparing with the source function settles whether the `else 0.0` branch can
ever influence the result. -/
def convertNoDefaultAux (acc : List (String × PyFloat)) :
    List ParamRecord → Except PyError (List (String × PyFloat))
  | [] => .ok acc
  | p :: rest =>
    if p.parameter_error_message = [] then
      match pyfloat p.parameter_default_value with
      | some v => convertNoDefaultAux (dictAssign acc p.parameter_name v) rest
      | none => .error (.valueError
          ("could not convert string to float: " ++ p.parameter_default_value))
    else convertNoDefaultAux acc rest

/-- `convert_distribution_parameters_to_valid_type` with the dead `else 0.0`
branch removed. -/
def convert_without_default_branch (records : List ParamRecord) :
    Except PyError (List (String × PyFloat)) :=
  convertNoDefaultAux [] records

/-- Characters allowed in an identifier of the target scripting language
(ASCII letters, digits, underscore). -/
def isIdentChar (c : Char) : Bool :=
  ('a' ≤ c && c ≤ 'z') || ('A' ≤ c && c ≤ 'Z') || ('0' ≤ c && c ≤ '9') || c == '_'

/-- A non-empty string of identifier characters: the shape the data model
(§3) gives to distribution kinds and parameter names. -/
def isIdentStr (s : String) : Bool :=
  !s.data.isEmpty && s.data.all isIdentChar

/-! ## Modelled from the spec: re-parsing a generated constructor call

The spec's round-trip property (§8) re-parses "the generated constructor
call as a keyword mapping".  No such parser exists in the sources, so the
following definitions are modelled from the spec's words: split the
generated text into lines, recognise the optional `**twiss(` wrapper line
and the closing bracket lines, and read each remaining line as
`<indent><keyword>=<float literal>,`. -/

/-- Split a character list at newline characters. -/
def splitLinesC : List Char → List (List Char)
  | [] => [[]]
  | c :: r =>
    match splitLinesC r with
    | [] => [[]]
    | h :: t => if c = '\n' then [] :: h :: t else (c :: h) :: t

/-- Remove an expected suffix from a list, or fail. -/
def stripTail {α : Type} [DecidableEq α] (tail l : List α) : Option (List α) :=
  if tail.length ≤ l.length ∧ l.drop (l.length - tail.length) = tail then
    some (l.take (l.length - tail.length))
  else none

/-- Modelled from the spec: read one generated parameter line
`<ind spaces><keyword>=<value literal>,` back as a keyword/value pair. -/
def parseKVLine (ind : Nat) (l : List Char) : Option (String × PyFloat) :=
  if l.take ind = List.replicate ind ' ' then
    match stripTail [','] (l.drop ind) with
    | some core =>
      let key := core.takeWhile (fun c => c != '=')
      match core.dropWhile (fun c => c != '=') with
      | [] => none
      | _ :: val => (pyfloatCore val).map fun v => (String.mk key, v)
    | none => none
  else none

/-- Modelled from the spec: re-parse the constructor call generated by
`build_distribution_list` as a keyword-to-value mapping (§8 round-trip). -/
def reparse_distribution_keywords (s : String) :
    Option (List (String × PyFloat)) :=
  match splitLinesC s.data with
  | [] => none
  | _ :: rest =>
    if rest.head? = some ("    **twiss(".data) then
      match stripTail ["    )".data, ")".data] rest.tail with
      | some body => body.mapM (parseKVLine 8)
      | none => none
    else
      match stripTail [")".data] rest with
      | some body => body.mapM (parseKVLine 4)
      | none => none

/-! ## Modelled from the spec: the syntactic-validity discipline at issue

The spec guarantees (§4.2) that the exported text "is syntactically valid
source text in the target scripting language".  The target language rejects
an argument list whose first token after the opening parenthesis is a comma
(`f(\n,\n)` is a syntax error, while a trailing comma before `)` and an
empty `[...]` literal are legal).  The scanner below checks exactly this
discipline: after a `(`, skipping spaces and newlines, the next character
must not be a comma. -/

/-- `true` when, somewhere in the input, the first non-whitespace character
after a `(` is a comma.  The flag records whether the scanner is currently
just after a `(` (possibly across whitespace). -/
def bareCommaScan : Bool → List Char → Bool
  | _, [] => false
  | afterOpen, c :: rest =>
    if afterOpen then
      if c = ' ' ∨ c = '\n' then bareCommaScan true rest
      else if c = ',' then true
      else bareCommaScan (c == '(') rest
    else bareCommaScan (c == '(') rest

/-- The generated text contains an argument list starting with a bare
comma — a syntax error in the target language. -/
def hasBareCommaArg (s : String) : Bool :=
  bareCommaScan false s.data

/-- The characters that can occur in a rendered float literal. -/
def floatLitChar (c : Char) : Bool :=
  isDigitChar c || c == '-' || c == 'e'

/-- The string rendered by `build_lattice_list` for one (named) lattice
element. -/
def latticeElementStr (element : LatticeElement) : String :=
  "elements." ++ element.name.getD "" ++ "("
    ++ pyJoin ", " ((parameter_input_checker_for_lattice element).map
        fun kv => kv.1 ++ "=" ++ kv.2)
    ++ ")"

/-! # Theorems -/

/-! ## Generic list lemmas -/

theorem takeWhile_append_stop {α : Type} {p : α → Bool} {xs ys : List α} {y : α}
    (hx : ∀ c ∈ xs, p c = true) (hy : p y = false) :
    (xs ++ y :: ys).takeWhile p = xs := by
  induction xs with
  | nil => simp [List.takeWhile_cons, hy]
  | cons a t ih =>
    have ha : p a = true := hx a (by simp)
    simp [List.takeWhile_cons, ha, ih (fun c hc => hx c (by simp [hc]))]

theorem dropWhile_append_stop {α : Type} {p : α → Bool} {xs ys : List α} {y : α}
    (hx : ∀ c ∈ xs, p c = true) (hy : p y = false) :
    (xs ++ y :: ys).dropWhile p = y :: ys := by
  induction xs with
  | nil => simp [List.dropWhile_cons, hy]
  | cons a t ih =>
    have ha : p a = true := hx a (by simp)
    simp [List.dropWhile_cons, ha, ih (fun c hc => hx c (by simp [hc]))]

theorem takeWhile_all {α : Type} {p : α → Bool} {xs : List α}
    (hx : ∀ c ∈ xs, p c = true) : xs.takeWhile p = xs := by
  induction xs with
  | nil => rfl
  | cons a t ih =>
    have ha : p a = true := hx a (by simp)
    simp [List.takeWhile_cons, ha, ih (fun c hc => hx c (by simp [hc]))]

theorem dropWhile_all {α : Type} {p : α → Bool} {xs : List α}
    (hx : ∀ c ∈ xs, p c = true) : xs.dropWhile p = [] := by
  induction xs with
  | nil => rfl
  | cons a t ih =>
    have ha : p a = true := hx a (by simp)
    simp [List.dropWhile_cons, ha, ih (fun c hc => hx c (by simp [hc]))]

theorem stripTail_append {α : Type} [DecidableEq α] (l t : List α) :
    stripTail t (l ++ t) = some l := by
  unfold stripTail
  have h2 : (l ++ t).length - t.length = l.length := by simp
  rw [if_pos ⟨by simp, by rw [h2, List.drop_left]⟩, h2, List.take_left]

/-! ## Decimal digits: rendering inverts to parsing -/

theorem digit_char_val : ∀ d < 10,
    charDigitVal (digitChar d) = d ∧ isDigitChar (digitChar d) = true := by
  decide

theorem digitsVal_snoc (xs : List Char) (c : Char) :
    digitsVal (xs ++ [c]) = 10 * digitsVal xs + charDigitVal c := by
  unfold digitsVal
  rw [List.foldl_append]
  simp [Nat.mul_comm]

theorem digitsVal_rev_map (l : List Nat) (h : ∀ d ∈ l, d < 10) :
    digitsVal (l.reverse.map digitChar) = Nat.ofDigits 10 l := by
  induction l with
  | nil => simp [digitsVal, Nat.ofDigits]
  | cons d t ih =>
    simp only [List.reverse_cons, List.map_append, List.map_cons, List.map_nil]
    rw [digitsVal_snoc, ih (fun x hx => h x (by simp [hx])), Nat.ofDigits_cons,
      (digit_char_val d (h d (by simp))).1]
    ring

theorem natToRevDigitsAux_eq (fuel : Nat) : ∀ n ≤ fuel,
    natToRevDigitsAux fuel n = Nat.digits 10 n := by
  induction fuel with
  | zero =>
    intro n hn
    interval_cases n
    simp [natToRevDigitsAux]
  | succ fuel ih =>
    intro n hn
    by_cases h0 : n = 0
    · simp [natToRevDigitsAux, h0]
    · have hdiv : n / 10 < n := Nat.div_lt_self (Nat.pos_of_ne_zero h0) (by norm_num)
      rw [natToRevDigitsAux, if_neg h0, ih (n / 10) (by omega),
        Nat.digits_def' (b := 10) (by norm_num) (Nat.pos_of_ne_zero h0)]

theorem digitsVal_natChars (n : Nat) : digitsVal (natChars n) = n := by
  unfold natChars
  by_cases h : n = 0
  · subst h; decide
  · rw [if_neg h, natToRevDigits, natToRevDigitsAux_eq n n le_rfl,
      digitsVal_rev_map _ (fun d hd => Nat.digits_lt_base (by norm_num) hd)]
    exact Nat.ofDigits_digits 10 n

theorem natChars_all_digit (n : Nat) : ∀ c ∈ natChars n, isDigitChar c = true := by
  intro c hc
  unfold natChars at hc
  by_cases h : n = 0
  · simp [h] at hc
    subst hc; decide
  · rw [if_neg h] at hc
    simp only [List.mem_map, List.mem_reverse] at hc
    obtain ⟨d, hd, rfl⟩ := hc
    exact (digit_char_val d (Nat.digits_lt_base (by norm_num)
      (by rw [natToRevDigits, natToRevDigitsAux_eq n n le_rfl] at hd; exact hd))).2

theorem natChars_ne_nil (n : Nat) : natChars n ≠ [] := by
  unfold natChars
  by_cases h : n = 0
  · simp [h]
  · rw [if_neg h]
    intro he
    have h2 := congrArg List.length he
    simp [natToRevDigits, natToRevDigitsAux_eq n n le_rfl] at h2
    rw [Nat.digits_eq_nil_iff_eq_zero] at h2
    exact h h2

theorem stripZeros_eq_self {m : Nat} (h : m % 10 ≠ 0) : stripZeros m = (m, 0) := by
  unfold stripZeros
  cases m with
  | zero => simp at h
  | succ k =>
    rw [stripZerosAux, if_neg]
    intro hc
    exact h hc.2

theorem stripZerosAux_spec (fuel : Nat) : ∀ n ≤ fuel, n ≠ 0 →
    (stripZerosAux fuel n).1 ≠ 0 ∧ (stripZerosAux fuel n).1 % 10 ≠ 0 := by
  induction fuel with
  | zero => intro n hn h0; omega
  | succ fuel ih =>
    intro n hn h0
    rw [stripZerosAux]
    by_cases hd : n % 10 = 0
    · rw [if_pos ⟨h0, hd⟩]
      have h10 : 10 ∣ n := Nat.dvd_of_mod_eq_zero hd
      have hq0 : n / 10 ≠ 0 := by
        intro he
        exact h0 (by omega)
      have hqle : n / 10 ≤ fuel := by
        have : n / 10 < n := Nat.div_lt_self (Nat.pos_of_ne_zero h0) (by norm_num)
        omega
      exact ih (n / 10) hqle hq0
    · rw [if_neg (fun hc => hd hc.2)]
      exact ⟨h0, hd⟩

theorem normPyFloat_normal (neg : Bool) (m : Nat) (e : Int) :
    (normPyFloat neg m e).Normal := by
  unfold normPyFloat
  by_cases h : m = 0
  · rw [if_pos h]
    exact ⟨fun _ => rfl, fun hc => absurd rfl hc⟩
  · rw [if_neg h]
    have hs := stripZerosAux_spec m m le_rfl h
    constructor
    · intro hm
      exfalso
      cases neg <;> simp at hm <;> exact hs.1 hm
    · intro _
      cases neg <;> simpa using hs.2

theorem parseExpTail_normal {neg : Bool} {m flen : Nat} {cs : List Char} {v : PyFloat}
    (h : parseExpTail neg m flen cs = some v) : v.Normal := by
  cases cs with
  | nil =>
    rw [parseExpTail] at h
    cases h
    exact normPyFloat_normal _ _ _
  | cons c r =>
    rw [parseExpTail] at h
    split at h
    · cases hp : parseExpPart r with
      | none => rw [hp] at h; cases h
      | some x =>
        rw [hp] at h
        cases h
        exact normPyFloat_normal _ _ _
    · cases h

theorem pyfloatCore_normal {cs : List Char} {v : PyFloat}
    (h : pyfloatCore cs = some v) : v.Normal := by
  unfold pyfloatCore at h
  dsimp only at h
  split at h
  · cases h
  · exact parseExpTail_normal h

theorem pyfloat_normal {s : String} {v : PyFloat}
    (h : pyfloat s = some v) : v.Normal :=
  pyfloatCore_normal h

theorem parseExpPart_intChars (e : Int) : parseExpPart (intChars e) = some e := by
  unfold intChars
  by_cases he : e < 0
  · rw [if_pos he, List.singleton_append, parseExpPart]
    rw [if_neg (by decide), if_pos rfl,
      if_pos ⟨natChars_ne_nil _, List.all_eq_true.2 (natChars_all_digit _)⟩]
    rw [digitsVal_natChars]
    congr 1
    omega
  · rw [if_neg he, List.nil_append]
    obtain ⟨c, r, hc⟩ := List.exists_cons_of_ne_nil (natChars_ne_nil e.natAbs)
    have hdig : isDigitChar c = true :=
      natChars_all_digit _ c (by rw [hc]; exact List.mem_cons_self c r)
    rw [hc, parseExpPart]
    rw [if_neg (by intro hc2; rw [hc2] at hdig; simp [isDigitChar] at hdig),
      if_neg (by intro hc2; rw [hc2] at hdig; simp [isDigitChar] at hdig),
      if_pos (by rw [← hc]; exact List.all_eq_true.2 (natChars_all_digit _))]
    rw [← hc, digitsVal_natChars]
    congr 1
    omega

theorem parseSign_digit {c : Char} (r : List Char) (hc : isDigitChar c = true) :
    parseSign (c :: r) = (false, c :: r) := by
  rw [parseSign]
  rw [if_neg (by intro h2; rw [h2] at hc; simp [isDigitChar] at hc),
    if_neg (by intro h2; rw [h2] at hc; simp [isDigitChar] at hc)]

theorem pyfloatCore_inv (v : PyFloat) (hv : v.Normal) :
    pyfloatCore (pyFloatChars v) = some v := by
  obtain ⟨m, e⟩ := v
  by_cases hm0 : m = 0
  · have he : e = 0 := hv.1 hm0
    subst hm0
    subst he
    decide
  · have hnd : m.natAbs % 10 ≠ 0 := hv.2 hm0
    have habs : m.natAbs ≠ 0 := fun h => hm0 (Int.natAbs_eq_zero.1 h)
    have hall := natChars_all_digit m.natAbs
    have hdw : (natChars m.natAbs ++ 'e' :: intChars e).takeWhile isDigitChar
        = natChars m.natAbs := takeWhile_append_stop hall (by decide)
    have hdw2 : (natChars m.natAbs ++ 'e' :: intChars e).dropWhile isDigitChar
        = 'e' :: intChars e := dropWhile_append_stop hall (by decide)
    have hfrac : parseFrac ('e' :: intChars e) = ([], 'e' :: intChars e) := by
      rw [parseFrac, if_neg (by decide)]
    have hnorm : ∀ neg : Bool, (neg = true ↔ m < 0) →
        normPyFloat neg m.natAbs (e - (([] : List Char).length : Int)) = PyFloat.mk m e := by
      intro neg hsign
      unfold normPyFloat
      rw [if_neg habs, stripZeros_eq_self hnd]
      dsimp only
      rw [PyFloat.mk.injEq]
      constructor
      · cases neg with
        | true =>
          have hmlt : m < 0 := hsign.1 rfl
          rw [if_pos rfl]
          omega
        | false =>
          have hmge : ¬ m < 0 := fun hc => absurd (hsign.2 hc) (by decide)
          rw [if_neg (by decide)]
          omega
      · simp
    have hexp : ∀ neg : Bool, (neg = true ↔ m < 0) →
        parseExpTail neg (digitsVal (natChars m.natAbs ++ ([] : List Char)))
          ([] : List Char).length ('e' :: intChars e) = some (PyFloat.mk m e) := by
      intro neg hsign
      rw [parseExpTail, if_pos (Or.inl rfl), parseExpPart_intChars]
      dsimp only
      rw [List.append_nil, digitsVal_natChars, hnorm neg hsign]
    by_cases hneg : m < 0
    · have hchars : pyFloatChars ⟨m, e⟩ = '-' :: (natChars m.natAbs ++ 'e' :: intChars e) := by
        unfold pyFloatChars intChars
        dsimp only
        rw [if_pos hneg]
        simp
      rw [hchars]
      unfold pyfloatCore
      have hsgn : parseSign ('-' :: (natChars m.natAbs ++ 'e' :: intChars e))
          = (true, natChars m.natAbs ++ 'e' :: intChars e) := by
        rw [parseSign, if_pos rfl]
      rw [hsgn]
      dsimp only
      rw [hdw, hdw2, hfrac]
      dsimp only
      rw [if_neg (fun hc => natChars_ne_nil _ hc.1)]
      exact hexp true (by simp [hneg])
    · have hchars : pyFloatChars ⟨m, e⟩ = natChars m.natAbs ++ 'e' :: intChars e := by
        unfold pyFloatChars intChars
        dsimp only
        rw [if_neg hneg]
        simp
      rw [hchars]
      obtain ⟨c, r, hc⟩ := List.exists_cons_of_ne_nil (natChars_ne_nil m.natAbs)
      have hcd : isDigitChar c = true :=
        hall c (by rw [hc]; exact List.mem_cons_self c r)
      unfold pyfloatCore
      have hsgn : parseSign (natChars m.natAbs ++ 'e' :: intChars e)
          = (false, natChars m.natAbs ++ 'e' :: intChars e) := by
        rw [hc, List.cons_append, parseSign_digit _ hcd, ← List.cons_append, ← hc]
      rw [hsgn]
      dsimp only
      rw [hdw, hdw2, hfrac]
      dsimp only
      rw [if_neg (fun hcc => natChars_ne_nil _ hcc.1)]
      exact hexp false (by simp [hneg])

/-! ## Character-class facts -/

theorem floatLitChar_spec {c : Char} (h : floatLitChar c = true) :
    c ≠ '\n' ∧ c ≠ '=' ∧ c ≠ ',' ∧ c ≠ ' ' ∧ c ≠ '(' ∧ c ≠ '*' ∧ c ≠ ')' := by
  refine ⟨?_, ?_, ?_, ?_, ?_, ?_, ?_⟩ <;>
    (intro he; subst he; exact absurd h (by decide))

theorem isIdentChar_spec {c : Char} (h : isIdentChar c = true) :
    c ≠ '\n' ∧ c ≠ '=' ∧ c ≠ ',' ∧ c ≠ ' ' ∧ c ≠ '(' ∧ c ≠ '*' ∧ c ≠ ')' := by
  refine ⟨?_, ?_, ?_, ?_, ?_, ?_, ?_⟩ <;>
    (intro he; subst he; exact absurd h (by decide))

theorem intChars_mem {i : Int} {c : Char} (h : c ∈ intChars i) :
    isDigitChar c = true ∨ c = '-' := by
  unfold intChars at h
  rw [List.mem_append] at h
  rcases h with h | h
  · right
    split at h <;> simp at h
    exact h
  · left
    exact natChars_all_digit _ _ h

theorem pyFloatChars_all (v : PyFloat) :
    ∀ c ∈ pyFloatChars v, floatLitChar c = true := by
  intro c hc
  unfold pyFloatChars at hc
  rw [List.mem_append, List.mem_cons] at hc
  rcases hc with h | h | h
  · rcases intChars_mem h with h2 | h2 <;> simp [floatLitChar, h2]
  · subst h; decide
  · rcases intChars_mem h with h2 | h2 <;> simp [floatLitChar, h2]

theorem pyfloat_inv {v : PyFloat} (hv : v.Normal) :
    pyfloat (pyFloatStr v) = some v :=
  pyfloatCore_inv v hv

/-! ## Dict semantics -/

theorem dictAssign_find_self (d : List (String × PyFloat)) (k : String) (v : PyFloat) :
    dictFind (dictAssign d k v) k = some v := by
  induction d with
  | nil => simp [dictAssign, dictFind]
  | cons p rest ih =>
    obtain ⟨k0, v0⟩ := p
    by_cases h : k0 = k
    · simp [dictAssign, h, dictFind]
    · simp [dictAssign, h, dictFind, ih]

theorem dictAssign_find_other (d : List (String × PyFloat)) (k : String) (v : PyFloat)
    (k2 : String) (h : k ≠ k2) : dictFind (dictAssign d k v) k2 = dictFind d k2 := by
  induction d with
  | nil => simp [dictAssign, dictFind, h]
  | cons p rest ih =>
    obtain ⟨k0, v0⟩ := p
    by_cases h0 : k0 = k
    · subst h0
      simp [dictAssign, dictFind, h]
    · simp [dictAssign, h0, dictFind, ih]

theorem dictAssign_keys (d : List (String × PyFloat)) (k : String) (v : PyFloat) :
    (dictAssign d k v).map Prod.fst = addKey (d.map Prod.fst) k := by
  induction d with
  | nil => simp [dictAssign, addKey]
  | cons p rest ih =>
    obtain ⟨k0, v0⟩ := p
    by_cases h : k0 = k
    · subst h
      simp [dictAssign, addKey]
    · by_cases hm : k ∈ rest.map Prod.fst
      · simp [dictAssign, h, ih, addKey, hm, Ne.symm h]
      · simp [dictAssign, h, ih, addKey, hm, Ne.symm h]

theorem dictAssign_mem {d : List (String × PyFloat)} {k : String} {v : PyFloat}
    {kv : String × PyFloat} (h : kv ∈ dictAssign d k v) : kv ∈ d ∨ kv = (k, v) := by
  induction d with
  | nil => simp [dictAssign] at h; right; exact h
  | cons p rest ih =>
    obtain ⟨k0, v0⟩ := p
    by_cases h0 : k0 = k
    · rw [dictAssign, if_pos h0] at h
      rcases List.mem_cons.1 h with h1 | h1
      · right; exact h1
      · left; exact List.mem_cons_of_mem _ h1
    · rw [dictAssign, if_neg h0] at h
      rcases List.mem_cons.1 h with h1 | h1
      · left; exact h1 ▸ List.mem_cons_self _ _
      · rcases ih h1 with h2 | h2
        · left; exact List.mem_cons_of_mem _ h2
        · right; exact h2

/-! ## The parameter validator -/

theorem lastValid_cons_some {p : ParamRecord} {rest : List ParamRecord} {n : String}
    {x : ParamRecord} (h : lastValid rest n = some x) :
    lastValid (p :: rest) n = some x := by
  rw [lastValid, h]

theorem lastValid_cons_none_pos {p : ParamRecord} {rest : List ParamRecord} {n : String}
    (h : lastValid rest n = none)
    (hc : p.parameter_error_message = [] ∧ p.parameter_name = n) :
    lastValid (p :: rest) n = some p := by
  rw [lastValid, h]
  exact if_pos hc

theorem lastValid_cons_none_neg {p : ParamRecord} {rest : List ParamRecord} {n : String}
    (h : lastValid rest n = none)
    (hc : ¬(p.parameter_error_message = [] ∧ p.parameter_name = n)) :
    lastValid (p :: rest) n = none := by
  rw [lastValid, h]
  exact if_neg hc

theorem lastValid_mem {recs : List ParamRecord} {n : String} {r : ParamRecord}
    (h : lastValid recs n = some r) :
    r ∈ recs ∧ r.parameter_error_message = [] ∧ r.parameter_name = n := by
  induction recs with
  | nil => simp [lastValid] at h
  | cons p rest ih =>
    cases hrest : lastValid rest n with
    | some x =>
      rw [lastValid_cons_some hrest] at h
      cases h
      obtain ⟨h1, h2, h3⟩ := ih hrest
      exact ⟨List.mem_cons_of_mem _ h1, h2, h3⟩
    | none =>
      by_cases hc : p.parameter_error_message = [] ∧ p.parameter_name = n
      · rw [lastValid_cons_none_pos hrest hc] at h
        cases h
        exact ⟨List.mem_cons_self _ _, hc.1, hc.2⟩
      · rw [lastValid_cons_none_neg hrest hc] at h
        cases h

theorem lastValid_isSome_iff (recs : List ParamRecord) (n : String) :
    (lastValid recs n).isSome = true ↔
      ∃ r ∈ recs, r.parameter_error_message = [] ∧ r.parameter_name = n := by
  induction recs with
  | nil => simp [lastValid]
  | cons p rest ih =>
    cases hrest : lastValid rest n with
    | some x =>
      rw [lastValid_cons_some hrest]
      simp only [Option.isSome_some, true_iff]
      obtain ⟨h1, h2, h3⟩ := lastValid_mem hrest
      exact ⟨x, List.mem_cons_of_mem _ h1, h2, h3⟩
    | none =>
      rw [hrest] at ih
      simp only [Option.isSome_none, Bool.false_eq_true, false_iff, not_exists] at ih
      by_cases hc : p.parameter_error_message = [] ∧ p.parameter_name = n
      · rw [lastValid_cons_none_pos hrest hc]
        simp only [Option.isSome_some, true_iff]
        exact ⟨p, List.mem_cons_self _ _, hc.1, hc.2⟩
      · rw [lastValid_cons_none_neg hrest hc]
        simp only [Option.isSome_none, Bool.false_eq_true, false_iff, not_exists]
        intro r
        rw [List.mem_cons]
        rintro ⟨hr | hr, h2, h3⟩
        · exact hc (hr ▸ ⟨h2, h3⟩)
        · exact ih r ⟨hr, h2, h3⟩

theorem validKeys_cons_pos {p : ParamRecord} {rest : List ParamRecord}
    (hp : p.parameter_error_message = []) :
    validKeys (p :: rest) = p.parameter_name :: validKeys rest := by
  rw [validKeys, validKeys, List.filter_cons_of_pos (by simpa using hp), List.map_cons]

theorem validKeys_cons_neg {p : ParamRecord} {rest : List ParamRecord}
    (hp : ¬ p.parameter_error_message = []) :
    validKeys (p :: rest) = validKeys rest := by
  rw [validKeys, validKeys, List.filter_cons_of_neg (by simpa using hp)]

theorem convertAux_find {recs : List ParamRecord} :
    ∀ {acc res : List (String × PyFloat)}, convertAux acc recs = .ok res → ∀ n,
    dictFind res n =
      (match lastValid recs n with
       | some r => pyfloat r.parameter_default_value
       | none => dictFind acc n) := by
  induction recs with
  | nil =>
    intro acc res h n
    rw [convertAux] at h
    cases h
    simp [lastValid]
  | cons p rest ih =>
    intro acc res h n
    rw [convertAux] at h
    by_cases hp : p.parameter_error_message = []
    · rw [if_pos hp] at h
      unfold convertValue at h
      rw [if_pos (by simpa using hp)] at h
      cases hpf : pyfloat p.parameter_default_value with
      | none => rw [hpf] at h; cases h
      | some v =>
        rw [hpf] at h
        dsimp only at h
        have hres := ih h n
        cases hrest : lastValid rest n with
        | some x =>
          rw [hrest] at hres
          rw [lastValid_cons_some hrest]
          exact hres
        | none =>
          rw [hrest] at hres
          dsimp only at hres
          by_cases hname : p.parameter_name = n
          · rw [lastValid_cons_none_pos hrest ⟨hp, hname⟩]
            dsimp only
            rw [hres, hname, dictAssign_find_self, hpf]
          · rw [lastValid_cons_none_neg hrest (fun hcc => hname hcc.2)]
            dsimp only
            rw [hres, dictAssign_find_other _ _ _ _ hname]
    · rw [if_neg hp] at h
      have hres := ih h n
      cases hrest : lastValid rest n with
      | some x =>
        rw [hrest] at hres
        rw [lastValid_cons_some hrest]
        exact hres
      | none =>
        rw [hrest] at hres
        rw [lastValid_cons_none_neg hrest (fun hcc => hp hcc.1)]
        exact hres

theorem convertAux_parses {recs : List ParamRecord} :
    ∀ {acc res : List (String × PyFloat)}, convertAux acc recs = .ok res →
    ∀ r ∈ recs, r.parameter_error_message = [] →
      (pyfloat r.parameter_default_value).isSome = true := by
  induction recs with
  | nil => intro acc res h r hr; simp at hr
  | cons p rest ih =>
    intro acc res h r hr hval
    rw [convertAux] at h
    rcases List.mem_cons.1 hr with hr1 | hr1
    · subst hr1
      rw [if_pos hval] at h
      unfold convertValue at h
      rw [if_pos (by simpa using hval)] at h
      cases hpf : pyfloat r.parameter_default_value with
      | none => rw [hpf] at h; cases h
      | some v => simp
    · by_cases hp : p.parameter_error_message = []
      · rw [if_pos hp] at h
        unfold convertValue at h
        rw [if_pos (by simpa using hp)] at h
        cases hpf : pyfloat p.parameter_default_value with
        | none => rw [hpf] at h; cases h
        | some v =>
          rw [hpf] at h
          dsimp only at h
          exact ih h r hr1 hval
      · rw [if_neg hp] at h
        exact ih h r hr1 hval

theorem convertAux_keys {recs : List ParamRecord} :
    ∀ {acc res : List (String × PyFloat)}, convertAux acc recs = .ok res →
    res.map Prod.fst = (validKeys recs).foldl addKey (acc.map Prod.fst) := by
  induction recs with
  | nil =>
    intro acc res h
    rw [convertAux] at h
    cases h
    simp [validKeys]
  | cons p rest ih =>
    intro acc res h
    rw [convertAux] at h
    by_cases hp : p.parameter_error_message = []
    · rw [if_pos hp] at h
      unfold convertValue at h
      rw [if_pos (by simpa using hp)] at h
      cases hpf : pyfloat p.parameter_default_value with
      | none => rw [hpf] at h; cases h
      | some v =>
        rw [hpf] at h
        dsimp only at h
        rw [ih h, validKeys_cons_pos hp, List.foldl_cons, dictAssign_keys]
    · rw [if_neg hp] at h
      rw [ih h, validKeys_cons_neg hp]

theorem convertAux_mem {recs : List ParamRecord} :
    ∀ {acc res : List (String × PyFloat)}, convertAux acc recs = .ok res →
    ∀ kv ∈ res, kv ∈ acc ∨
      ∃ r ∈ recs, r.parameter_error_message = [] ∧ r.parameter_name = kv.1 ∧
        pyfloat r.parameter_default_value = some kv.2 := by
  induction recs with
  | nil =>
    intro acc res h kv hkv
    rw [convertAux] at h
    cases h
    exact Or.inl hkv
  | cons p rest ih =>
    intro acc res h kv hkv
    rw [convertAux] at h
    by_cases hp : p.parameter_error_message = []
    · rw [if_pos hp] at h
      unfold convertValue at h
      rw [if_pos (by simpa using hp)] at h
      cases hpf : pyfloat p.parameter_default_value with
      | none => rw [hpf] at h; cases h
      | some v =>
        rw [hpf] at h
        dsimp only at h
        rcases ih h kv hkv with hacc | ⟨r, hr, h1, h2, h3⟩
        · rcases dictAssign_mem hacc with h2 | h2
          · exact Or.inl h2
          · subst h2
            exact Or.inr ⟨p, List.mem_cons_self _ _, hp, rfl, hpf⟩
        · exact Or.inr ⟨r, List.mem_cons_of_mem _ hr, h1, h2, h3⟩
    · rw [if_neg hp] at h
      rcases ih h kv hkv with hacc | ⟨r, hr, h1, h2, h3⟩
      · exact Or.inl hacc
      · exact Or.inr ⟨r, List.mem_cons_of_mem _ hr, h1, h2, h3⟩

theorem convertAux_eq_noDefault (recs : List ParamRecord) :
    ∀ acc, convertAux acc recs = convertNoDefaultAux acc recs := by
  induction recs with
  | nil => intro acc; rfl
  | cons p rest ih =>
    intro acc
    rw [convertAux, convertNoDefaultAux]
    by_cases hp : p.parameter_error_message = []
    · rw [if_pos hp, if_pos hp]
      unfold convertValue
      rw [if_pos (by simpa using hp)]
      cases hpf : pyfloat p.parameter_default_value with
      | none => rfl
      | some v => exact ih _
    · rw [if_neg hp, if_neg hp]
      exact ih _

theorem convertAux_error_shape {recs : List ParamRecord} :
    ∀ {acc : List (String × PyFloat)} {e : PyError}, convertAux acc recs = .error e →
    ∃ msg, e = .valueError msg := by
  induction recs with
  | nil => intro acc e h; rw [convertAux] at h; cases h
  | cons p rest ih =>
    intro acc e h
    rw [convertAux] at h
    by_cases hp : p.parameter_error_message = []
    · rw [if_pos hp] at h
      unfold convertValue at h
      rw [if_pos (by simpa using hp)] at h
      cases hpf : pyfloat p.parameter_default_value with
      | none =>
        rw [hpf] at h
        dsimp only at h
        cases h
        exact ⟨_, rfl⟩
      | some v =>
        rw [hpf] at h
        dsimp only at h
        exact ih h
    · rw [if_neg hp] at h
      exact ih h

theorem convertAux_error_of_badRecord {recs : List ParamRecord} :
    ∀ {acc : List (String × PyFloat)},
    (∃ r ∈ recs, r.parameter_error_message = [] ∧
      pyfloat r.parameter_default_value = none) →
    ∃ msg, convertAux acc recs = .error (.valueError msg) := by
  induction recs with
  | nil => rintro acc ⟨r, hr, _⟩; simp at hr
  | cons p rest ih =>
    rintro acc ⟨r, hr, hval, hbad⟩
    rw [convertAux]
    by_cases hp : p.parameter_error_message = []
    · rw [if_pos hp]
      unfold convertValue
      rw [if_pos (by simpa using hp)]
      cases hpf : pyfloat p.parameter_default_value with
      | none => exact ⟨_, rfl⟩
      | some v =>
        dsimp only
        rcases List.mem_cons.1 hr with hr1 | hr1
        · subst hr1
          rw [hpf] at hbad
          cases hbad
        · exact ih ⟨r, hr1, hval, hbad⟩
    · rw [if_neg hp]
      rcases List.mem_cons.1 hr with hr1 | hr1
      · subst hr1
        exact absurd hval hp
      · exact ih ⟨r, hr1, hval, hbad⟩

/-! ## The export template builders -/

theorem except_bind_ok {ε α β : Type} (a : α) (f : α → Except ε β) :
    (Except.ok a : Except ε α) >>= f = f a := rfl

theorem except_bind_err {ε α β : Type} (e : ε) (f : α → Except ε β) :
    (Except.error e : Except ε α) >>= f = Except.error e := rfl

theorem except_pure {ε α : Type} (a : α) : (pure a : Except ε α) = .ok a := rfl

theorem indent_four : String.mk (List.replicate 4 ' ') = "    " := by decide

theorem indent_eight : String.mk (List.replicate 8 ' ') = "        " := by decide

theorem build_distribution_list_flat {st : DashState} {res : List (String × PyFloat)}
    (h : convert_distribution_parameters_to_valid_type
      st.selectedDistributionParameters = .ok res)
    (ht : st.selectedDistributionType ≠ "Twiss") :
    build_distribution_list st = .ok
      ("distr = distribution." ++ st.selectedDistribution ++ "(\n"
        ++ pyJoin ",\n" (res.map fun kv => "    " ++ kv.1 ++ "=" ++ pyFloatStr kv.2)
        ++ ",\n" ++ ")") := by
  unfold build_distribution_list
  rw [h, except_bind_ok]
  dsimp only
  rw [if_neg ht, if_neg ht, indent_four, except_pure]

theorem build_distribution_list_twiss {st : DashState} {res : List (String × PyFloat)}
    (h : convert_distribution_parameters_to_valid_type
      st.selectedDistributionParameters = .ok res)
    (ht : st.selectedDistributionType = "Twiss") :
    build_distribution_list st = .ok
      ("distr = distribution." ++ st.selectedDistribution ++ "(\n"
        ++ "    **twiss(\n"
        ++ pyJoin ",\n" (res.map fun kv => "        " ++ kv.1 ++ "=" ++ pyFloatStr kv.2)
        ++ ",\n" ++ "    )\n" ++ ")") := by
  unfold build_distribution_list
  rw [h, except_bind_ok]
  dsimp only
  rw [if_pos ht, if_pos ht, indent_eight, except_pure]

theorem build_distribution_list_err {st : DashState} {e : PyError}
    (h : convert_distribution_parameters_to_valid_type
      st.selectedDistributionParameters = .error e) :
    build_distribution_list st = .error e := by
  unfold build_distribution_list
  rw [h, except_bind_err]

theorem renderLatticeElement_named {e : LatticeElement} {n : String}
    (hn : e.name = some n) :
    renderLatticeElement e = .ok (latticeElementStr e) := by
  unfold renderLatticeElement latticeElementStr
  rw [hn]
  dsimp only
  rw [Option.getD_some]

theorem mapM_render_ok {lst : List LatticeElement}
    (h : ∀ e ∈ lst, e.name.isSome = true) :
    lst.mapM renderLatticeElement = .ok (lst.map latticeElementStr) := by
  induction lst with
  | nil => rfl
  | cons e rest ih =>
    obtain ⟨n, hn⟩ := Option.isSome_iff_exists.1 (h e (List.mem_cons_self _ _))
    rw [List.mapM_cons, renderLatticeElement_named hn, except_bind_ok,
      ih (fun x hx => h x (List.mem_cons_of_mem _ hx)), except_bind_ok, List.map_cons,
      except_pure]

theorem build_lattice_list_ok {lst : List LatticeElement}
    (h : ∀ e ∈ lst, e.name.isSome = true) :
    build_lattice_list lst = .ok
      ("lattice_configuration = [\n    "
        ++ pyJoin ",\n    " (lst.map latticeElementStr) ++ "\n]") := by
  unfold build_lattice_list
  rw [mapM_render_ok h, except_bind_ok]
  rfl

theorem mapM_render_keyError {lst : List LatticeElement}
    (h : ∃ e ∈ lst, e.name = none) :
    lst.mapM renderLatticeElement = .error (.keyError "name") := by
  induction lst with
  | nil => simp at h
  | cons e rest ih =>
    cases hn : e.name with
    | none =>
      have he : renderLatticeElement e = .error (.keyError "name") := by
        unfold renderLatticeElement
        rw [hn]
      rw [List.mapM_cons, he, except_bind_err]
    | some n =>
      rw [List.mapM_cons, renderLatticeElement_named hn, except_bind_ok]
      obtain ⟨x, hx, hxn⟩ := h
      rcases List.mem_cons.1 hx with h1 | h1
      · subst h1
        rw [hn] at hxn
        cases hxn
      · rw [ih ⟨x, h1, hxn⟩, except_bind_err]

theorem build_lattice_list_keyError {lst : List LatticeElement}
    (h : ∃ e ∈ lst, e.name = none) :
    build_lattice_list lst = .error (.keyError "name") := by
  unfold build_lattice_list
  rw [mapM_render_keyError h, except_bind_err]

theorem input_file_ok {st : DashState} {d l : String}
    (hd : build_distribution_list st = .ok d)
    (hl : build_lattice_list st.selectedLatticeList = .ok l) :
    input_file st = .ok
      ("\nfrom impactx import ImpactX, distribution, elements, twiss\n\nsim = ImpactX()\n\nsim.particle_shape = "
        ++ st.particle_shape
        ++ "\nsim.space_charge = False\nsim.csr = False\nsim.slice_step_diagnostics = True\n\nsim.init_grids()\n\n# Initialize particle beam\nkin_energy_MeV = "
        ++ st.kin_energy_MeV
        ++ "\nbunch_charge_C = "
        ++ st.bunch_charge_C
        ++ "\nnpart = "
        ++ st.npart
        ++ "\n\n# Reference particle\nref = sim.particle_container().ref_particle()\nref.set_charge_qe("
        ++ st.charge_qe
        ++ ").set_mass_MeV("
        ++ st.mass_MeV
        ++ ").set_kin_energy_MeV(kin_energy_MeV)\n\n"
        ++ d
        ++ "\nsim.add_particles(bunch_charge_C, distr, npart)\n\n"
        ++ l
        ++ "\nsim.lattice.extend(lattice_configuration)\n\n# Simulate\nsim.track_particles()\n\nsim.finalize()\n") := by
  unfold input_file
  rw [hd, except_bind_ok, hl, except_bind_ok, except_pure]

/-! # Claim theorems -/

/-- C1: for every input list of parameter records, the validated mapping
returned by `convert_distribution_parameters_to_valid_type` has an entry
exactly for the records whose `parameter_error_message` list is empty, and
every entry's value is the float parse of that record's
`parameter_default_value`; a record with a non-empty error list contributes
no entry at all. -/
theorem C1_mapping_exactly_valid_records
    (records : List ParamRecord) (res : List (String × PyFloat))
    (h : convert_distribution_parameters_to_valid_type records = .ok res) :
    (∀ n : String, (dictFind res n).isSome = true ↔
      ∃ r ∈ records, r.parameter_name = n ∧ r.parameter_error_message = []) ∧
    (∀ kv ∈ res, ∃ r ∈ records, r.parameter_error_message = [] ∧
      r.parameter_name = kv.1 ∧ pyfloat r.parameter_default_value = some kv.2) := by
  constructor
  · intro n
    have hf := convertAux_find h n
    cases hlv : lastValid records n with
    | some r =>
      rw [hlv] at hf
      dsimp only at hf
      rw [hf]
      obtain ⟨h1, h2, h3⟩ := lastValid_mem hlv
      constructor
      · intro _
        exact ⟨r, h1, h3, h2⟩
      · intro _
        exact convertAux_parses h r h1 h2
    | none =>
      rw [hlv] at hf
      dsimp only at hf
      rw [hf]
      simp only [dictFind, Option.isSome_none, Bool.false_eq_true, false_iff, not_exists]
      intro r ⟨h1, h2, h3⟩
      have h4 := (lastValid_isSome_iff records n).2 ⟨r, h1, h3, h2⟩
      rw [hlv] at h4
      simp at h4
  · intro kv hkv
    rcases convertAux_mem h kv hkv with hacc | hex
    · simp at hacc
    · exact hex

theorem C1_witness :
    (dictFind [("lambdaX", PyFloat.mk 15 (-4))] "lambdaX").isSome = true ∧
    (dictFind [("lambdaX", PyFloat.mk 15 (-4))] "bad").isSome = false := by
  have h := C1_mapping_exactly_valid_records
    [⟨"lambdaX", "1.5e-3", []⟩, ⟨"bad", "7.0", ["err"]⟩]
    [("lambdaX", ⟨15, -4⟩)] (by decide)
  constructor
  · exact (h.1 "lambdaX").2 ⟨⟨"lambdaX", "1.5e-3", []⟩, by decide, rfl, rfl⟩
  · have h2 := h.1 "bad"
    by_contra hc
    simp only [Bool.not_eq_false] at hc
    obtain ⟨r, hr, hn, he⟩ := h2.1 hc
    rcases List.mem_cons.1 hr with h3 | h3
    · subst h3
      exact absurd hn (by decide)
    · rcases List.mem_cons.1 h3 with h4 | h4
      · subst h4
        exact absurd he (by decide)
      · simp at h4

/-- C7: the key order of the validated mapping follows the input record
order (a duplicated name keeps its first position, as Python dicts do), and
when two valid records share a `parameter_name` the mapping holds one entry
for that name whose value comes from the last such record (last wins). -/
theorem C7_key_order_last_wins
    (records : List ParamRecord) (res : List (String × PyFloat))
    (h : convert_distribution_parameters_to_valid_type records = .ok res) :
    res.map Prod.fst = firstOccur (validKeys records) ∧
    (∀ n v, dictFind res n = some v →
      ∃ r, lastValid records n = some r ∧
        pyfloat r.parameter_default_value = some v) := by
  constructor
  · have hk := convertAux_keys h
    rw [hk]
    rfl
  · intro n v hv
    have hf := convertAux_find h n
    cases hlv : lastValid records n with
    | some r =>
      rw [hlv] at hf
      dsimp only at hf
      exact ⟨r, rfl, by rw [← hf]; exact hv⟩
    | none =>
      rw [hlv] at hf
      dsimp only at hf
      rw [hv] at hf
      cases hf

theorem C7_witness :
    [(("a" : String), PyFloat.mk 2 0)].map Prod.fst
      = firstOccur (validKeys [⟨"a", "1.0", []⟩, ⟨"b", "3.0", ["bad"]⟩, ⟨"a", "2.0", []⟩]) ∧
    (∃ r, lastValid [ParamRecord.mk "a" "1.0" [], ⟨"b", "3.0", ["bad"]⟩, ⟨"a", "2.0", []⟩] "a"
        = some r ∧ pyfloat r.parameter_default_value = some ⟨2, 0⟩) := by
  have h := C7_key_order_last_wins
    [⟨"a", "1.0", []⟩, ⟨"b", "3.0", ["bad"]⟩, ⟨"a", "2.0", []⟩]
    [("a", ⟨2, 0⟩)] (by decide)
  exact ⟨h.1, h.2 "a" ⟨2, 0⟩ (by decide)⟩

/-- C9: the `else 0.0` branch of the comprehension is unreachable — the
function computes exactly what the branch-free variant computes, and every
value of an `ok` result is the float parse of some kept record's default
value, never the substituted `0.0` of that branch. -/
theorem C9_else_branch_unreachable :
    (∀ records, convert_distribution_parameters_to_valid_type records
      = convert_without_default_branch records) ∧
    (∀ records res, convert_distribution_parameters_to_valid_type records = .ok res →
      ∀ kv ∈ res, ∃ r ∈ records, r.parameter_error_message = [] ∧
        r.parameter_name = kv.1 ∧ pyfloat r.parameter_default_value = some kv.2) := by
  constructor
  · intro records
    exact convertAux_eq_noDefault records []
  · intro records res h kv hkv
    rcases convertAux_mem h kv hkv with hacc | hex
    · simp at hacc
    · exact hex

theorem C9_witness :
    ∃ r ∈ [ParamRecord.mk "w_halo" "0.0" []], r.parameter_error_message = [] ∧
      r.parameter_name = "w_halo" ∧ pyfloat r.parameter_default_value = some ⟨0, 0⟩ :=
  C9_else_branch_unreachable.2 [⟨"w_halo", "0.0", []⟩] [("w_halo", ⟨0, 0⟩)]
    (by decide) ("w_halo", ⟨0, 0⟩) (by decide)

/-- C6 counterexample: a record whose error list is empty but whose default
value `"abc"` is not parseable does not produce a `ValidationError`; the
builtin `ValueError` raised by `float` propagates uncaught into the script
generator `build_distribution_list`. -/
theorem C6_counterexample :
    build_distribution_list
      ⟨"Waterbag", "Standard", [⟨"sigmaX", "abc", []⟩], [], "2", "2", "2", "2", "2", "2"⟩
      = .error (.valueError "could not convert string to float: abc") := by
  decide

/-- C6 (amended): a record with an empty error list and an unparseable
default value makes `convert_distribution_parameters_to_valid_type` raise
the builtin `ValueError` of `float`, and that exception propagates uncaught
into script generation (`build_distribution_list` fails with it); no
`ValidationError` mechanism exists. -/
theorem C6_valueError_propagates (st : DashState)
    (h : ∃ r ∈ st.selectedDistributionParameters, r.parameter_error_message = [] ∧
      pyfloat r.parameter_default_value = none) :
    ∃ msg, build_distribution_list st = .error (.valueError msg) := by
  obtain ⟨msg, hmsg⟩ := convertAux_error_of_badRecord h
  exact ⟨msg, build_distribution_list_err hmsg⟩

theorem C6_witness :
    ∃ msg, build_distribution_list
      ⟨"Thermal", "Standard", [⟨"w_halo", "oops", []⟩], [], "2", "2", "2", "2", "2", "2"⟩
      = .error (.valueError msg) :=
  C6_valueError_propagates _ ⟨⟨"w_halo", "oops", []⟩, by decide, rfl, by decide⟩

/-- C10: `build_lattice_list` renders each element's `"name"` field as the
constructor identifier `elements.<name>(...)`, and any element record
lacking a `"name"` key makes the whole rendering fail with `KeyError` — so
every rendered element requires a `"name"` field. -/
theorem C10_name_field_required :
    (∀ (e : LatticeElement) (n : String), e.name = some n →
      renderLatticeElement e = .ok ("elements." ++ n ++ "("
        ++ pyJoin ", " ((parameter_input_checker_for_lattice e).map
            fun kv => kv.1 ++ "=" ++ kv.2) ++ ")")) ∧
    (∀ lst : List LatticeElement, (∃ e ∈ lst, e.name = none) →
      build_lattice_list lst = .error (.keyError "name")) := by
  constructor
  · intro e n hn
    rw [renderLatticeElement_named hn]
    unfold latticeElementStr
    rw [hn, Option.getD_some]
  · intro lst h
    exact build_lattice_list_keyError h

theorem C10_witness :
    renderLatticeElement ⟨some "Quad", [⟨"ds", "1.0", true⟩, ⟨"k", "0.25", true⟩]⟩
      = .ok "elements.Quad(ds=1.0, k=0.25)" ∧
    build_lattice_list [⟨some "Quad", [⟨"ds", "1.0", true⟩]⟩, ⟨none, []⟩]
      = .error (.keyError "name") := by
  constructor
  · have h := C10_name_field_required.1
      ⟨some "Quad", [⟨"ds", "1.0", true⟩, ⟨"k", "0.25", true⟩]⟩ "Quad" rfl
    rw [h]
    decide
  · exact C10_name_field_required.2 [⟨some "Quad", [⟨"ds", "1.0", true⟩]⟩, ⟨none, []⟩]
      ⟨⟨none, []⟩, by decide, rfl⟩

/-- C3: for every lattice element list (whose records all carry a `"name"`
key, which C10 shows is forced), `build_lattice_list` renders exactly one
`elements.<...>(...)` constructor call per element, in input order, joined
by the separator `",\n    "`. -/
theorem C3_one_call_per_element_in_order (lst : List LatticeElement)
    (h : ∀ e ∈ lst, e.name.isSome = true) :
    build_lattice_list lst = .ok
      ("lattice_configuration = [\n    "
        ++ pyJoin ",\n    " (lst.map latticeElementStr) ++ "\n]") ∧
    (lst.map latticeElementStr).length = lst.length ∧
    (∀ i (hi : i < lst.length),
      (lst.map latticeElementStr).get ⟨i, by simpa using hi⟩
        = latticeElementStr (lst.get ⟨i, hi⟩)) := by
  refine ⟨build_lattice_list_ok h, by simp, ?_⟩
  intro i hi
  simp

theorem C3_witness :
    build_lattice_list [⟨some "Quad", [⟨"ds", "1.0", true⟩, ⟨"k", "0.25", true⟩]⟩,
        ⟨some "Drift", [⟨"ds", "1.0", true⟩]⟩]
      = .ok "lattice_configuration = [\n    elements.Quad(ds=1.0, k=0.25),\n    elements.Drift(ds=1.0)\n]" := by
  have h := (C3_one_call_per_element_in_order
    [⟨some "Quad", [⟨"ds", "1.0", true⟩, ⟨"k", "0.25", true⟩]⟩,
     ⟨some "Drift", [⟨"ds", "1.0", true⟩]⟩] (by decide)).1
  rw [h]
  decide

/-- C2: when `selectedDistributionType` is `"Twiss"`, every parameter line
is rendered with 8 spaces of indentation nested inside a `**twiss(...)`
wrapper; for any other type, every parameter line gets 4 spaces of
indentation and the call has no `twiss(` wrapper. -/
theorem C2_twiss_indentation (st : DashState) (res : List (String × PyFloat))
    (h : convert_distribution_parameters_to_valid_type
      st.selectedDistributionParameters = .ok res) :
    (st.selectedDistributionType = "Twiss" →
      build_distribution_list st = .ok
        ("distr = distribution." ++ st.selectedDistribution ++ "(\n"
          ++ "    **twiss(\n"
          ++ pyJoin ",\n" (res.map fun kv => "        " ++ kv.1 ++ "=" ++ pyFloatStr kv.2)
          ++ ",\n" ++ "    )\n" ++ ")")) ∧
    (st.selectedDistributionType ≠ "Twiss" →
      build_distribution_list st = .ok
        ("distr = distribution." ++ st.selectedDistribution ++ "(\n"
          ++ pyJoin ",\n" (res.map fun kv => "    " ++ kv.1 ++ "=" ++ pyFloatStr kv.2)
          ++ ",\n" ++ ")")) :=
  ⟨fun ht => build_distribution_list_twiss h ht,
   fun ht => build_distribution_list_flat h ht⟩

theorem C2_witness :
    build_distribution_list
      ⟨"Gaussian", "Twiss", [⟨"beta_x", "1.5", []⟩, ⟨"alpha_x", "0.0", []⟩],
        [], "2", "2", "2", "2", "2", "2"⟩
      = .ok "distr = distribution.Gaussian(\n    **twiss(\n        beta_x=15e-1,\n        alpha_x=0e0,\n    )\n)" ∧
    build_distribution_list
      ⟨"Waterbag", "Standard", [⟨"lambdaX", "1.5", []⟩], [], "2", "2", "2", "2", "2", "2"⟩
      = .ok "distr = distribution.Waterbag(\n    lambdaX=15e-1,\n)" := by
  constructor
  · have h := (C2_twiss_indentation
      ⟨"Gaussian", "Twiss", [⟨"beta_x", "1.5", []⟩, ⟨"alpha_x", "0.0", []⟩],
        [], "2", "2", "2", "2", "2", "2"⟩
      [("beta_x", ⟨15, -1⟩), ("alpha_x", ⟨0, 0⟩)] (by decide)).1 rfl
    rw [h]
    decide
  · have h := (C2_twiss_indentation
      ⟨"Waterbag", "Standard", [⟨"lambdaX", "1.5", []⟩], [], "2", "2", "2", "2", "2", "2"⟩
      [("lambdaX", ⟨15, -1⟩)] (by decide)).2 (by decide)
    rw [h]
    decide

/-- C8: the script text produced by `input_file` contains the engine
lifecycle statements in the fixed template order: configuration flag
assignments, `init_grids`, reference-particle construction with its three
chained setters, distribution construction, `add_particles`, lattice
assembly and `extend`, `track_particles`, `finalize` — exhibited by the
explicit decomposition of the output into template chunks in that order. -/
theorem C8_lifecycle_order (st : DashState) (d l : String)
    (hd : build_distribution_list st = .ok d)
    (hl : build_lattice_list st.selectedLatticeList = .ok l) :
    input_file st = .ok
      ("\nfrom impactx import ImpactX, distribution, elements, twiss\n\nsim = ImpactX()\n\nsim.particle_shape = "
        ++ st.particle_shape
        ++ "\nsim.space_charge = False\nsim.csr = False\nsim.slice_step_diagnostics = True\n\nsim.init_grids()\n\n# Initialize particle beam\nkin_energy_MeV = "
        ++ st.kin_energy_MeV
        ++ "\nbunch_charge_C = "
        ++ st.bunch_charge_C
        ++ "\nnpart = "
        ++ st.npart
        ++ "\n\n# Reference particle\nref = sim.particle_container().ref_particle()\nref.set_charge_qe("
        ++ st.charge_qe
        ++ ").set_mass_MeV("
        ++ st.mass_MeV
        ++ ").set_kin_energy_MeV(kin_energy_MeV)\n\n"
        ++ d
        ++ "\nsim.add_particles(bunch_charge_C, distr, npart)\n\n"
        ++ l
        ++ "\nsim.lattice.extend(lattice_configuration)\n\n# Simulate\nsim.track_particles()\n\nsim.finalize()\n") :=
  input_file_ok hd hl

set_option maxRecDepth 4000 in
theorem C8_witness :
    input_file
      ⟨"Waterbag", "Standard", [⟨"lambdaX", "1.5", []⟩],
        [⟨some "Drift", [⟨"ds", "1.0", true⟩]⟩],
        "2", "2.0e3", "1.0e-9", "10000", "-1.0", "0.51"⟩
      = .ok "\nfrom impactx import ImpactX, distribution, elements, twiss\n\nsim = ImpactX()\n\nsim.particle_shape = 2\nsim.space_charge = False\nsim.csr = False\nsim.slice_step_diagnostics = True\n\nsim.init_grids()\n\n# Initialize particle beam\nkin_energy_MeV = 2.0e3\nbunch_charge_C = 1.0e-9\nnpart = 10000\n\n# Reference particle\nref = sim.particle_container().ref_particle()\nref.set_charge_qe(-1.0).set_mass_MeV(0.51).set_kin_energy_MeV(kin_energy_MeV)\n\ndistr = distribution.Waterbag(\n    lambdaX=15e-1,\n)\nsim.add_particles(bunch_charge_C, distr, npart)\n\nlattice_configuration = [\n    elements.Drift(ds=1.0)\n]\nsim.lattice.extend(lattice_configuration)\n\n# Simulate\nsim.track_particles()\n\nsim.finalize()\n" := by
  have h := C8_lifecycle_order
    ⟨"Waterbag", "Standard", [⟨"lambdaX", "1.5", []⟩],
      [⟨some "Drift", [⟨"ds", "1.0", true⟩]⟩],
      "2", "2.0e3", "1.0e-9", "10000", "-1.0", "0.51"⟩
    "distr = distribution.Waterbag(\n    lambdaX=15e-1,\n)"
    "lattice_configuration = [\n    elements.Drift(ds=1.0)\n]"
    (by decide) (by decide)
  rw [h]
  decide

/-- C5 is violated by the code: a populated state whose validated parameter
mapping is empty (every record invalid) makes `build_distribution_list`
render `distribution.Waterbag(\n,\n)` — an argument list whose first token
is a bare comma, which the target language rejects — while the empty
lattice list does render the syntactically fine empty list literal. -/
theorem C5_empty_mapping_bare_comma :
    build_distribution_list
      ⟨"Waterbag", "Standard", [⟨"lambdaX", "1.0", ["invalid input"]⟩],
        [], "2", "2", "2", "2", "2", "2"⟩
      = .ok "distr = distribution.Waterbag(\n,\n)" ∧
    hasBareCommaArg "distr = distribution.Waterbag(\n,\n)" = true ∧
    build_lattice_list [] = .ok "lattice_configuration = [\n    \n]" ∧
    hasBareCommaArg "lattice_configuration = [\n    \n]" = false := by
  decide

/-! ## Line splitting -/

theorem splitLinesC_ne_nil (l : List Char) : splitLinesC l ≠ [] := by
  induction l with
  | nil => simp [splitLinesC]
  | cons c r ih =>
    rw [splitLinesC]
    cases h : splitLinesC r with
    | nil => exact absurd h ih
    | cons h0 t =>
      by_cases hc : c = '\n'
      · simp [hc]
      · simp [hc]

theorem splitLinesC_no_newline {a : List Char} (h : '\n' ∉ a) :
    splitLinesC a = [a] := by
  induction a with
  | nil => rfl
  | cons c r ih =>
    have hc : ¬ c = '\n' := fun hc => h (hc ▸ List.mem_cons_self c r)
    have hr := ih (fun hm => h (List.mem_cons_of_mem c hm))
    rw [splitLinesC, hr]
    dsimp only
    rw [if_neg hc]

theorem splitLinesC_append_newline {a : List Char} (b : List Char) (h : '\n' ∉ a) :
    splitLinesC (a ++ '\n' :: b) = a :: splitLinesC b := by
  induction a with
  | nil =>
    rw [List.nil_append, splitLinesC]
    cases hb : splitLinesC b with
    | nil => exact absurd hb (splitLinesC_ne_nil b)
    | cons h0 t =>
      dsimp only
      rw [if_pos rfl]
  | cons c r ih =>
    have hc : ¬ c = '\n' := fun hc => h (hc ▸ List.mem_cons_self c r)
    have hr := ih (fun hm => h (List.mem_cons_of_mem c hm))
    rw [List.cons_append, splitLinesC, hr]
    dsimp only
    rw [if_neg hc]

theorem splitLines_pyJoin (l : List String) (tail : List Char)
    (hne : l ≠ []) (hnl : ∀ s ∈ l, '\n' ∉ s.data) :
    splitLinesC ((pyJoin ",\n" l).data ++ ',' :: '\n' :: tail)
      = l.map (fun s => s.data ++ [',']) ++ splitLinesC tail := by
  induction l with
  | nil => exact absurd rfl hne
  | cons x r ih =>
    cases r with
    | nil =>
      rw [pyJoin]
      have hx : '\n' ∉ x.data ++ [','] := by
        intro hm
        rcases List.mem_append.1 hm with hm | hm
        · exact hnl x (List.mem_cons_self _ _) hm
        · simp at hm
      have hre : x.data ++ ',' :: '\n' :: tail = (x.data ++ [',']) ++ '\n' :: tail := by
        simp
      rw [hre, splitLinesC_append_newline _ hx]
      rfl
    | cons y rr =>
      rw [pyJoin, String.data_append, String.data_append]
      have hx : '\n' ∉ x.data ++ [','] := by
        intro hm
        rcases List.mem_append.1 hm with hm | hm
        · exact hnl x (List.mem_cons_self _ _) hm
        · simp at hm
      have hre : (x.data ++ ",\n".data) ++ (pyJoin ",\n" (y :: rr)).data
          ++ ',' :: '\n' :: tail
          = (x.data ++ [',']) ++ '\n' :: ((pyJoin ",\n" (y :: rr)).data
            ++ ',' :: '\n' :: tail) := by
        simp
      rw [hre, splitLinesC_append_newline _ hx,
        ih (by simp) (fun s hs => hnl s (List.mem_cons_of_mem _ hs))]
      simp

/-! ## Reading one generated keyword line back -/

theorem option_bind_some {α β : Type} (a : α) (f : α → Option β) :
    (some a : Option α) >>= f = f a := rfl

theorem string_mk_data (s : String) : String.mk s.data = s := by
  cases s
  rfl

theorem identStr_parts {s : String} (h : isIdentStr s = true) :
    s.data ≠ [] ∧ ∀ c ∈ s.data, isIdentChar c = true := by
  unfold isIdentStr at h
  rw [Bool.and_eq_true] at h
  constructor
  · intro he
    rw [he] at h
    simp at h
  · exact List.all_eq_true.1 h.2

theorem identStr_no_newline {s : String} (h : isIdentStr s = true) :
    '\n' ∉ s.data := by
  intro hm
  exact ((isIdentChar_spec ((identStr_parts h).2 '\n' hm)).1) rfl

theorem pyFloatChars_no_newline (v : PyFloat) : '\n' ∉ pyFloatChars v := by
  intro hm
  exact ((floatLitChar_spec (pyFloatChars_all v '\n' hm)).1) rfl

theorem parseKVLine_renders (ind : Nat) (k : String) (v : PyFloat)
    (hk : isIdentStr k = true) (hv : v.Normal) :
    parseKVLine ind (List.replicate ind ' ' ++ (k.data ++ '=' :: pyFloatChars v) ++ [','])
      = some (k, v) := by
  obtain ⟨hkne, hkall⟩ := identStr_parts hk
  unfold parseKVLine
  have hlen : ind = (List.replicate ind ' ').length := (List.length_replicate ind ' ').symm
  rw [List.append_assoc]
  have htake := List.take_left (List.replicate ind ' ')
    ((k.data ++ '=' :: pyFloatChars v) ++ [','])
  have hdrop := List.drop_left (List.replicate ind ' ')
    ((k.data ++ '=' :: pyFloatChars v) ++ [','])
  rw [List.length_replicate] at htake hdrop
  rw [if_pos htake, hdrop, stripTail_append]
  dsimp only
  have htw : (k.data ++ '=' :: pyFloatChars v).takeWhile (fun c => c != '=') = k.data :=
    takeWhile_append_stop
      (fun c hc => by simp only [bne_iff_ne, ne_eq, decide_eq_true_eq]
                      exact (isIdentChar_spec (hkall c hc)).2.1)
      (by decide)
  have hdw : (k.data ++ '=' :: pyFloatChars v).dropWhile (fun c => c != '=')
      = '=' :: pyFloatChars v :=
    dropWhile_append_stop
      (fun c hc => by simp only [bne_iff_ne, ne_eq, decide_eq_true_eq]
                      exact (isIdentChar_spec (hkall c hc)).2.1)
      (by decide)
  rw [htw, hdw]
  show Option.map (fun w => (String.mk k.data, w)) (pyfloatCore (pyFloatChars v))
    = some (k, v)
  rw [pyfloatCore_inv v hv]
  show some (String.mk k.data, v) = some (k, v)
  rw [string_mk_data]

theorem mapM_parseKVLine (ind : Nat) (res : List (String × PyFloat))
    (h : ∀ kv ∈ res, isIdentStr kv.1 = true ∧ kv.2.Normal) :
    (res.map (fun kv =>
      List.replicate ind ' ' ++ (kv.1.data ++ '=' :: pyFloatChars kv.2) ++ [','])).mapM
        (parseKVLine ind) = some res := by
  induction res with
  | nil => rfl
  | cons kv rest ih =>
    obtain ⟨hk, hv⟩ := h kv (List.mem_cons_self _ _)
    rw [List.map_cons, List.mapM_cons, parseKVLine_renders ind kv.1 kv.2 hk hv,
      option_bind_some, ih (fun x hx => h x (List.mem_cons_of_mem _ hx)),
      option_bind_some]
    rfl

/-! ## Round trip of the generated distribution call -/

theorem flat_lineData (kv : String × PyFloat) :
    ("    " ++ kv.1 ++ "=" ++ pyFloatStr kv.2).data ++ [','] =
    List.replicate 4 ' ' ++ (kv.1.data ++ '=' :: pyFloatChars kv.2) ++ [','] := by
  rw [String.data_append, String.data_append, String.data_append]
  have h4 : "    ".data = List.replicate 4 ' ' := by decide
  have he : "=".data = ['='] := by decide
  have hf : (pyFloatStr kv.2).data = pyFloatChars kv.2 := rfl
  rw [h4, he, hf]
  simp

theorem twiss_lineData (kv : String × PyFloat) :
    ("        " ++ kv.1 ++ "=" ++ pyFloatStr kv.2).data ++ [','] =
    List.replicate 8 ' ' ++ (kv.1.data ++ '=' :: pyFloatChars kv.2) ++ [','] := by
  rw [String.data_append, String.data_append, String.data_append]
  have h8 : "        ".data = List.replicate 8 ' ' := by decide
  have he : "=".data = ['='] := by decide
  have hf : (pyFloatStr kv.2).data = pyFloatChars kv.2 := rfl
  rw [h8, he, hf]
  simp

theorem line_no_newline {kv : String × PyFloat} (hk : isIdentStr kv.1 = true)
    (ind : String) (hind : '\n' ∉ ind.data) :
    '\n' ∉ (ind ++ kv.1 ++ "=" ++ pyFloatStr kv.2).data := by
  rw [String.data_append, String.data_append, String.data_append]
  intro hm
  rcases List.mem_append.1 hm with hm | hm
  · rcases List.mem_append.1 hm with hm | hm
    · rcases List.mem_append.1 hm with hm | hm
      · exact hind hm
      · exact identStr_no_newline hk hm
    · simp at hm
  · exact pyFloatChars_no_newline kv.2 hm

theorem canon_line_ne_twiss {kv : String × PyFloat} (hk : isIdentStr kv.1 = true) :
    List.replicate 4 ' ' ++ (kv.1.data ++ '=' :: pyFloatChars kv.2) ++ [',']
      ≠ "    **twiss(".data := by
  intro heq
  obtain ⟨hkne, hkall⟩ := identStr_parts hk
  obtain ⟨c, kd, hcd⟩ := List.exists_cons_of_ne_nil hkne
  rw [hcd] at heq
  have htl : "    **twiss(".data
      = [' ', ' ', ' ', ' ', '*', '*', 't', 'w', 'i', 's', 's', '('] := by decide
  rw [htl] at heq
  simp only [List.replicate, List.cons_append, List.nil_append, List.cons.injEq,
    true_and] at heq
  have hc : c = '*' := heq.1
  have hni := (isIdentChar_spec (hkall c (hcd ▸ List.mem_cons_self c kd))).2.2.2.2.2.1
  exact hni (hc ▸ rfl)

/-- C4: for every well-formed configuration — at least one validated
parameter, identifier-shaped distribution name and parameter names, as §3's
data model requires — re-parsing the constructor call generated by
`build_distribution_list` as a keyword-to-value mapping yields exactly the
validated mapping produced by
`convert_distribution_parameters_to_valid_type` (same keys, same values,
in order). -/
theorem C4_distribution_round_trip (st : DashState) (res : List (String × PyFloat))
    (h : convert_distribution_parameters_to_valid_type
      st.selectedDistributionParameters = .ok res)
    (hne : res ≠ [])
    (hname : isIdentStr st.selectedDistribution = true)
    (hkeys : ∀ kv ∈ res, isIdentStr kv.1 = true)
    (out : String) (hout : build_distribution_list st = .ok out) :
    reparse_distribution_keywords out = some res := by
  have hnorm : ∀ kv ∈ res, kv.2.Normal := by
    intro kv hkv
    rcases convertAux_mem h kv hkv with hacc | ⟨r, _, _, _, hp⟩
    · simp at hacc
    · exact pyfloat_normal hp
  have hhdr : '\n' ∉ "distr = distribution.".data ++ st.selectedDistribution.data
      ++ ['('] := by
    intro hm
    rcases List.mem_append.1 hm with hm | hm
    · rcases List.mem_append.1 hm with hm | hm
      · revert hm
        decide
      · exact identStr_no_newline hname hm
    · simp at hm
  obtain ⟨kv0, res0, hres⟩ := List.exists_cons_of_ne_nil hne
  by_cases ht : st.selectedDistributionType = "Twiss"
  · rw [build_distribution_list_twiss h ht] at hout
    injection hout with hout
    subst hout
    unfold reparse_distribution_keywords
    have hlnl : ∀ s ∈ res.map (fun kv => "        " ++ kv.1 ++ "=" ++ pyFloatStr kv.2),
        '\n' ∉ s.data := by
      intro s hs
      obtain ⟨kv, hkv, rfl⟩ := List.mem_map.1 hs
      exact line_no_newline (hkeys kv hkv) "        " (by decide)
    have hchars : ("distr = distribution." ++ st.selectedDistribution ++ "(\n"
          ++ "    **twiss(\n"
          ++ pyJoin ",\n" (res.map fun kv => "        " ++ kv.1 ++ "=" ++ pyFloatStr kv.2)
          ++ ",\n" ++ "    )\n" ++ ")").data
        = ("distr = distribution.".data ++ st.selectedDistribution.data ++ ['('])
          ++ '\n' :: ("    **twiss(".data ++ '\n'
            :: ((pyJoin ",\n" (res.map fun kv =>
                  "        " ++ kv.1 ++ "=" ++ pyFloatStr kv.2)).data
              ++ ',' :: '\n' :: ("    )".data ++ '\n' :: [')']))) := by
      rw [String.data_append, String.data_append, String.data_append,
        String.data_append, String.data_append, String.data_append,
        String.data_append]
      have h1 : "(\n".data = ['(', '\n'] := by decide
      have h2 : "    **twiss(\n".data = "    **twiss(".data ++ ['\n'] := by decide
      have h3 : ",\n".data = [',', '\n'] := by decide
      have h4 : "    )\n".data = "    )".data ++ ['\n'] := by decide
      have h5 : ")".data = [')'] := by decide
      rw [h1, h2, h3, h4, h5]
      simp
    rw [hchars, splitLinesC_append_newline _ hhdr,
      splitLinesC_append_newline _ (by decide : '\n' ∉ "    **twiss(".data),
      splitLines_pyJoin _ _ (by simp [hres]) hlnl,
      splitLinesC_append_newline _ (by decide : '\n' ∉ "    )".data),
      splitLinesC_no_newline (by decide : '\n' ∉ [')'])]
    dsimp only
    rw [List.map_map,
      show ((fun s : String => s.data ++ [',']) ∘
          (fun kv : String × PyFloat => "        " ++ kv.1 ++ "=" ++ pyFloatStr kv.2))
        = (fun kv : String × PyFloat =>
          List.replicate 8 ' ' ++ (kv.1.data ++ '=' :: pyFloatChars kv.2) ++ [','])
        from funext twiss_lineData]
    rw [List.head?_cons, if_pos rfl]
    dsimp only [List.tail_cons]
    rw [stripTail_append]
    exact mapM_parseKVLine 8 res (fun kv hkv => ⟨hkeys kv hkv, hnorm kv hkv⟩)
  · rw [build_distribution_list_flat h ht] at hout
    injection hout with hout
    subst hout
    unfold reparse_distribution_keywords
    have hlnl : ∀ s ∈ res.map (fun kv => "    " ++ kv.1 ++ "=" ++ pyFloatStr kv.2),
        '\n' ∉ s.data := by
      intro s hs
      obtain ⟨kv, hkv, rfl⟩ := List.mem_map.1 hs
      exact line_no_newline (hkeys kv hkv) "    " (by decide)
    have hchars : ("distr = distribution." ++ st.selectedDistribution ++ "(\n"
          ++ pyJoin ",\n" (res.map fun kv => "    " ++ kv.1 ++ "=" ++ pyFloatStr kv.2)
          ++ ",\n" ++ ")").data
        = ("distr = distribution.".data ++ st.selectedDistribution.data ++ ['('])
          ++ '\n' :: ((pyJoin ",\n" (res.map fun kv =>
                "    " ++ kv.1 ++ "=" ++ pyFloatStr kv.2)).data
            ++ ',' :: '\n' :: [')']) := by
      rw [String.data_append, String.data_append, String.data_append,
        String.data_append, String.data_append]
      have h1 : "(\n".data = ['(', '\n'] := by decide
      have h3 : ",\n".data = [',', '\n'] := by decide
      have h5 : ")".data = [')'] := by decide
      rw [h1, h3, h5]
      simp
    rw [hchars, splitLinesC_append_newline _ hhdr,
      splitLines_pyJoin _ _ (by simp [hres]) hlnl,
      splitLinesC_no_newline (by decide : '\n' ∉ [')'])]
    dsimp only
    rw [List.map_map,
      show ((fun s : String => s.data ++ [',']) ∘
          (fun kv : String × PyFloat => "    " ++ kv.1 ++ "=" ++ pyFloatStr kv.2))
        = (fun kv : String × PyFloat =>
          List.replicate 4 ' ' ++ (kv.1.data ++ '=' :: pyFloatChars kv.2) ++ [','])
        from funext flat_lineData]
    have hhead : ((res.map (fun kv : String × PyFloat =>
          List.replicate 4 ' ' ++ (kv.1.data ++ '=' :: pyFloatChars kv.2) ++ [',']))
          ++ [[')']]).head? ≠ some ("    **twiss(".data) := by
      rw [hres, List.map_cons, List.cons_append, List.head?_cons]
      intro hc
      exact canon_line_ne_twiss (hkeys kv0 (hres ▸ List.mem_cons_self kv0 res0))
        (Option.some.inj hc)
    rw [if_neg hhead, stripTail_append]
    exact mapM_parseKVLine 4 res (fun kv hkv => ⟨hkeys kv hkv, hnorm kv hkv⟩)

theorem C4_witness :
    reparse_distribution_keywords
      "distr = distribution.Waterbag(\n    lambdaX=15e-1,\n    muxpx=0e0,\n)"
      = some [("lambdaX", ⟨15, -1⟩), ("muxpx", ⟨0, 0⟩)] :=
  C4_distribution_round_trip
    ⟨"Waterbag", "Standard", [⟨"lambdaX", "1.5", []⟩, ⟨"muxpx", "0.0", []⟩],
      [], "2", "2", "2", "2", "2", "2"⟩
    [("lambdaX", ⟨15, -1⟩), ("muxpx", ⟨0, 0⟩)]
    (by decide) (by decide) (by decide) (by decide)
    "distr = distribution.Waterbag(\n    lambdaX=15e-1,\n    muxpx=0e0,\n)"
    (by decide)
